import Mathlib

/-!
Shallow embedding of src/utils/request.js: an interceptor-chain request
pipeline over a callback-based platform transport.

Values flowing through the pipeline are modelled polymorphically; request
configuration objects are modelled concretely as ordered association lists
(`JObj`) with JavaScript property-set and spread semantics. A settled
promise is `Except α α` (`ok` = fulfilled, `error` = rejected/thrown);
handler steps are `α → Except α α`, so a step that throws and a step that
returns a failed result are both `Except.error`.
-/

namespace WxRequest

/-- Field values appearing in request configs: strings or flat
string-to-string maps (for headers). -/
inductive JField where
  | s : String → JField
  | o : List (String × String) → JField
deriving DecidableEq

/-- A JavaScript object, as an ordered association list of fields. -/
abbrev JObj := List (String × JField)

/-- JavaScript property write on a flat string map: if the key exists the
value is updated in place (key order preserved), otherwise the pair is
appended. -/
def strSet (m : List (String × String)) (k v : String) : List (String × String) :=
  if m.any (fun p => p.1 = k) then
    m.map (fun p => if p.1 = k then (k, v) else p)
  else m ++ [(k, v)]

/-- JavaScript property write on an object. -/
def objSet (obj : JObj) (k : String) (v : JField) : JObj :=
  if obj.any (fun p => p.1 = k) then
    obj.map (fun p => if p.1 = k then (k, v) else p)
  else obj ++ [(k, v)]

/-- Property read: value of the first binding of `k`, if any. -/
def objGet (obj : JObj) (k : String) : Option JField :=
  (obj.find? (fun p => p.1 = k)).map (fun p => p.2)

/-- JavaScript object spread of `b` onto `a` (keys of `b` win, key order of
`a` preserved on overwritten keys, new keys of `b` appended in order). -/
def objSpread (a b : JObj) : JObj :=
  b.foldl (fun acc kv => objSet acc kv.1 kv.2) a

/-- A settled promise value: fulfilled or rejected. -/
abbrev Settled (α : Type) := Except α α

/-- A handler step: maps the incoming value to a settled result. -/
abbrev Step (α : Type) := α → Settled α

/-- An interceptor as registered by InterceptorManager.prototype.use: a
pair of optional fulfilled and rejected callbacks (either may be
undefined in the JavaScript call). -/
structure Interceptor (α : Type) where
  fulfilled : Option (Step α)
  rejected : Option (Step α)

/-- The handlers array of an InterceptorManager: an ordered sequence of
slots, where `none` stands for a slot that is null (removed) or an
unassigned array hole. -/
abbrev Manager (α : Type) := List (Option (Interceptor α))

/-- InterceptorManager.prototype.use: push the handler pair onto the end
of `handlers` and return `handlers.length - 1`. -/
def use (m : Manager α) (fulfilled rejected : Option (Step α)) : Manager α × Nat :=
  let m2 := m ++ [some (Interceptor.mk fulfilled rejected)]
  (m2, m2.length - 1)

/-- InterceptorManager.prototype.reject: the array index write
`handlers[id] = null`. Within bounds it nulls the slot in place; out of
bounds it extends the array to length `id + 1` (JavaScript leaves
unassigned holes below `id`; holes and nulls are observationally equal
here, both are `none`). -/
def rejectAt (m : Manager α) (id : Nat) : Manager α :=
  if id < m.length then m.set id none
  else m ++ List.replicate (id + 1 - m.length) none

/-- InterceptorManager.prototype.forEach: the handlers that the traversal
invokes `fn` on — every non-null slot, in storage order (Array.forEach
also skips holes). -/
def forEachVisits (m : Manager α) : List (Interceptor α) :=
  m.filterMap id

/-- Run a sequence of use calls, starting from manager `m`; returns the
final manager and the list of ids returned by each call. -/
def useAll (ps : List (Interceptor α)) (m : Manager α) : Manager α × List Nat :=
  match ps with
  | [] => (m, [])
  | p :: rest =>
    let r := use m p.fulfilled p.rejected
    let rest2 := useAll rest r.1
    (rest2.1, r.2 :: rest2.2)

/-- A Request client: default config plus one InterceptorManager per
phase, as set up by the Request constructor (instanceConfig may be
undefined, hence `Option`). -/
structure Client (α : Type) where
  defaults : Option JObj
  requestInterceptors : Manager α
  responseInterceptors : Manager α

/-- One link of the chain array: the pair `(fulfilled, rejected)` handed
to `promise.then`; `none` means undefined, so the corresponding outcome
passes through unchanged. -/
abbrev StepPair (α : Type) := Option (Step α) × Option (Step α)

/-- The pair an interceptor contributes to the chain. -/
def toPair (i : Interceptor α) : StepPair α :=
  (i.fulfilled, i.rejected)

/-- One `promise.then(onFulfilled, onRejected)` link under single-value
promise semantics: `onFulfilled` runs on success, `onRejected` on failure,
and a missing callback lets the outcome propagate unchanged. -/
def thenStep (p : Settled α) (pair : StepPair α) : Settled α :=
  match p with
  | Except.ok v =>
    match pair.1 with
    | some f => f v
    | none => Except.ok v
  | Except.error e =>
    match pair.2 with
    | some r => r e
    | none => Except.error e

/-- The `while (chain.length) promise = promise.then(chain.shift(), chain.shift())`
loop: reduce the chain left to right from the initial promise. -/
def runChain (init : Settled α) (chain : List (StepPair α)) : Settled α :=
  chain.foldl thenStep init

/-- Chain assembly in Request.prototype.request: start from
`[dispatchRequest, undefined]`, unshift each non-null request interceptor
pair in registration order, then push each non-null response interceptor
pair in registration order. -/
def buildChain (c : Client α) (dispatch : Step α) : List (StepPair α) :=
  let base : List (StepPair α) := [(some dispatch, none)]
  let withReq := (forEachVisits c.requestInterceptors).foldl
    (fun chain i => toPair i :: chain) base
  (forEachVisits c.responseInterceptors).foldl
    (fun chain i => chain ++ [toPair i]) withReq

/-- Request.prototype.request: `promise = Promise.resolve(config)` — the
caller config as given, with no merge against `this.defaults` — then the
chain reduction. The terminal dispatch step is a parameter standing for
dispatchRequest over the platform transport. -/
def Client.request (c : Client α) (dispatch : Step α) (config : α) : Settled α :=
  runChain (Except.ok config) (buildChain c dispatch)

/-- State-passing rendering of Request.prototype.request: the method only
reads `this.interceptors` and `chain` is a fresh local array, so the
client state component is returned as it was received. -/
def Client.requestSt (c : Client α) (dispatch : Step α) (config : α) :
    Client α × Settled α :=
  (c, Client.request c dispatch config)

/-- State-passing rendering of use on the request-phase manager. -/
def Client.useRequest (c : Client α) (f r : Option (Step α)) : Client α × Nat :=
  let u := use c.requestInterceptors f r
  (Client.mk c.defaults u.1 c.responseInterceptors, u.2)

/-- State-passing rendering of use on the response-phase manager. -/
def Client.useResponse (c : Client α) (f r : Option (Step α)) : Client α × Nat :=
  let u := use c.responseInterceptors f r
  (Client.mk c.defaults c.requestInterceptors u.1, u.2)

/-- State-passing rendering of reject on the request-phase manager. -/
def Client.rejectRequest (c : Client α) (id : Nat) : Client α :=
  Client.mk c.defaults (rejectAt c.requestInterceptors id) c.responseInterceptors

/-- State-passing rendering of reject on the response-phase manager. -/
def Client.rejectResponse (c : Client α) (id : Nat) : Client α :=
  Client.mk c.defaults c.requestInterceptors (rejectAt c.responseInterceptors id)

/-- One callback invocation made by the platform transport wx.request:
either the success callback with a response payload or the fail callback
with an error payload. -/
inductive CbCall (α : Type) where
  | success : α → CbCall α
  | fail : α → CbCall α

/-- Promise settlement discipline inside `new Promise`: the first call to
resolve or reject settles the promise; any later call is ignored. -/
def settleOnce (st : Option (Settled α)) (c : CbCall α) : Option (Settled α) :=
  match st with
  | some r => some r
  | none =>
    match c with
    | CbCall.success v => some (Except.ok v)
    | CbCall.fail e => some (Except.error e)

/-- How one transport callback maps to a settlement: the success payload
fulfils, the failure payload rejects. -/
def bridgeCall : CbCall α → Settled α
  | CbCall.success v => Except.ok v
  | CbCall.fail e => Except.error e

/-- dispatchRequest: `new Promise((resolve, reject) => wx.request({...config,
success: resolve, fail: reject}))`. The transport argument models
wx.request: given the config it was passed, the sequence of callback
invocations it performs. The result records the configs passed to the
transport (a single invocation, with the config fields forwarded
verbatim) and the final promise state (`none` = never settled). -/
def dispatchRequest (transport : α → List (CbCall α)) (config : α) :
    List α × Option (Settled α) :=
  ([config], (transport config).foldl settleOnce none)

/-- Request.prototype[method] for the data-less verbs (delete, get, head,
options): `this.request({...config || {}, method: method, url: url})`. -/
def methodNoData (c : Client JObj) (dispatch : Step JObj) (method url : String)
    (config : Option JObj) : Settled JObj :=
  Client.request c dispatch
    (objSet (objSet (config.getD []) "method" (JField.s method)) "url" (JField.s url))

/-- Request.prototype[method] for the body-bearing verbs (post, put,
patch): `this.request({...config || {}, method: method, url: url, data: data})`. -/
def methodWithData (c : Client JObj) (dispatch : Step JObj) (method url : String)
    (data : JField) (config : Option JObj) : Settled JObj :=
  Client.request c dispatch
    (objSet (objSet (objSet (config.getD []) "method" (JField.s method)) "url"
      (JField.s url)) "data" data)

/-- A tracing handler step used to observe execution order: fulfils with
the incoming trace extended by its label. -/
def appendStep (lab : String) : Step (List String) :=
  fun t => Except.ok (t ++ [lab])

/-- The request interceptor of the end-to-end scenario: writes
header[x-token] = abc into the incoming config (reading an absent header
as an empty map) and fulfils with the updated config. -/
def addTokenStep : Step JObj :=
  fun config =>
    let hdr := match objGet config "header" with
      | some (JField.o h) => h
      | _ => []
    Except.ok (objSet config "header" (JField.o (strSet hdr "x-token" "abc")))

/-- A dispatch step that fulfils with the config it receives, used to
observe the config reaching the terminal dispatch step. -/
def echoDispatch : Step JObj := fun config => Except.ok config

/-- Instance defaults of the end-to-end scenario. -/
def scenarioDefaults : JObj :=
  [("header", JField.o [("content-type", "application/json")])]

/-- Caller config of the end-to-end scenario. -/
def scenarioConfig : JObj :=
  [("url", JField.s "/ping"), ("method", JField.s "get")]

/-- The end-to-end scenario client: the defaults above and one request
interceptor that adds the token header. -/
def scenarioClient : Client JObj :=
  Client.mk (some scenarioDefaults)
    [some (Interceptor.mk (some addTokenStep) none)] []

/-- The effective config the spec requires request to build before the
chain begins: caller config spread onto the instance defaults, caller
fields winning. Written from the words of the spec, for comparison with
Client.request, which performs no such merge. -/
def specMergedConfig (defaults config : JObj) : JObj :=
  objSpread defaults config

/-- The dispatch-visible config the claim expects in the end-to-end
scenario. -/
def claimedDispatchConfig : JObj :=
  [("header", JField.o [("content-type", "application/json"),
    ("x-token", "abc")]),
   ("url", JField.s "/ping"), ("method", JField.s "get")]

/-- The effective config the spec requires of get(url, config): caller
config spread onto defaults, then method and url. Written from the words
of the spec, for comparison with methodNoData. -/
def specGetEffectiveConfig (defaults config : JObj) (url : String) : JObj :=
  objSet (objSet (objSpread defaults config) "method" (JField.s "get"))
    "url" (JField.s url)

/-- Client of the convenience-method scenario: nonempty defaults, no
interceptors. -/
def c7Client : Client JObj :=
  Client.mk (some scenarioDefaults) [] []

/-- Caller config of the convenience-method scenario. -/
def c7CallerConfig : JObj := [("headers", JField.o [("a", "1")])]

/-! Helper lemmas. -/

theorem filterMap_id_replicate_none (β : Type) (k : Nat) :
    (List.replicate k (none : Option β)).filterMap id = [] := by
  induction k with
  | zero => rfl
  | succ n ih => simp [List.replicate_succ, List.filterMap_cons, ih]

theorem set_get?_self (β : Type) :
    ∀ (m : List β) (n : Nat) (a : β), n < m.length →
      (m.set n a).get? n = some a := by
  intro m
  induction m with
  | nil => intro n a h; simp at h
  | cons x xs ih =>
    intro n a h
    cases n with
    | zero => rfl
    | succ k =>
      have hk : k < xs.length := by simp at h; omega
      exact ih k a hk

theorem set_take (β : Type) :
    ∀ (m : List β) (n : Nat) (a : β), (m.set n a).take n = m.take n := by
  intro m
  induction m with
  | nil => intro n a; cases n <;> rfl
  | cons x xs ih =>
    intro n a
    cases n with
    | zero => rfl
    | succ k => exact congrArg (fun l => x :: l) (ih k a)

theorem set_drop (β : Type) :
    ∀ (m : List β) (n : Nat) (a : β),
      (m.set n a).drop (n + 1) = m.drop (n + 1) := by
  intro m
  induction m with
  | nil => intro n a; rfl
  | cons x xs ih =>
    intro n a
    cases n with
    | zero => rfl
    | succ k => exact ih k a

theorem set_none_filterMap (β : Type) :
    ∀ (m : List (Option β)) (n : Nat), n < m.length →
      (m.set n none).filterMap id =
        (m.take n).filterMap id ++ (m.drop (n + 1)).filterMap id := by
  intro m
  induction m with
  | nil => intro n h; simp at h
  | cons x xs ih =>
    intro n h
    cases n with
    | zero => simp [List.filterMap_cons]
    | succ k =>
      have hk : k < xs.length := by simp at h; omega
      cases x with
      | none => simpa [List.filterMap_cons] using ih k hk
      | some b => simp [List.filterMap_cons, ih k hk]

theorem useAll_spec (α : Type) :
    ∀ (ps : List (Interceptor α)) (m : Manager α),
      useAll ps m = (m ++ ps.map some, List.range' m.length ps.length) := by
  intro ps
  induction ps with
  | nil => intro m; simp [useAll, List.range']
  | cons p rest ih =>
    intro m
    simp only [useAll, use]
    rw [ih]
    simp [List.range'_succ, List.append_assoc]

theorem foldl_cons_eq (β γ : Type) (g : β → γ) :
    ∀ (L : List β) (base : List γ),
      L.foldl (fun acc i => g i :: acc) base = (L.map g).reverse ++ base := by
  intro L
  induction L with
  | nil => intro base; rfl
  | cons x xs ih =>
    intro base
    rw [List.foldl_cons, ih]
    simp [List.append_assoc]

theorem foldl_push_eq (β γ : Type) (g : β → γ) :
    ∀ (L : List β) (base : List γ),
      L.foldl (fun acc i => acc ++ [g i]) base = base ++ L.map g := by
  intro L
  induction L with
  | nil => intro base; simp
  | cons x xs ih =>
    intro base
    rw [List.foldl_cons, ih]
    simp [List.append_assoc]

theorem buildChain_eq (α : Type) (c : Client α) (dispatch : Step α) :
    buildChain c dispatch
      = ((forEachVisits c.requestInterceptors).map toPair).reverse
        ++ (some dispatch, none)
          :: (forEachVisits c.responseInterceptors).map toPair := by
  show (forEachVisits c.responseInterceptors).foldl
      (fun chain i => chain ++ [toPair i])
      ((forEachVisits c.requestInterceptors).foldl
        (fun chain i => toPair i :: chain) [(some dispatch, none)]) = _
  rw [foldl_push_eq, foldl_cons_eq]
  simp [List.append_assoc]

theorem runChain_append (α : Type) (init : Settled α) (a b : List (StepPair α)) :
    runChain init (a ++ b) = runChain (runChain init a) b := by
  simp [runChain, List.foldl_append]

/-! Claim theorems. -/

/-- Claim C4: every use call appends its handler pair to the end of the
sequence and returns the zero-based position of that slot at insertion
time, and for any sequence of use calls starting from an empty manager
the ids returned are 0, 1, ..., n-1 and forEach visits the registered
non-null handlers in exact insertion order. -/
theorem use_appends_and_visits_in_order (α : Type) (ps : List (Interceptor α)) :
    (∀ (m : Manager α) (f r : Option (Step α)),
        use m f r = (m ++ [some (Interceptor.mk f r)], m.length))
  ∧ (useAll ps []).1 = ps.map some
  ∧ (useAll ps []).2 = List.range ps.length
  ∧ forEachVisits (useAll ps []).1 = ps := by
  refine ⟨fun m f r => ?_, ?_, ?_, ?_⟩
  · simp [use]
  · simp [useAll_spec]
  · simp [useAll_spec, List.range_eq_range']
  · simp [useAll_spec, forEachVisits, List.filterMap_map]

/-- Claim C5: for an id within the current bounds of the sequence (as
every id returned by use is), reject nulls that slot in place: the length
and every other position are unchanged, the slot holds null, rejecting it
again is a no-op, and forEach visits exactly the non-null handlers before
and after the slot, in order, skipping the rejected one. -/
theorem reject_nulls_slot_in_place (α : Type) (m : Manager α) (id : Nat)
    (h : id < m.length) :
    (rejectAt m id).length = m.length
  ∧ (rejectAt m id).get? id = some none
  ∧ (rejectAt m id).take id = m.take id
  ∧ (rejectAt m id).drop (id + 1) = m.drop (id + 1)
  ∧ rejectAt (rejectAt m id) id = rejectAt m id
  ∧ forEachVisits (rejectAt m id) =
      forEachVisits (m.take id) ++ forEachVisits (m.drop (id + 1)) := by
  have hr : rejectAt m id = m.set id none := by simp [rejectAt, h]
  refine ⟨?_, ?_, ?_, ?_, ?_, ?_⟩
  · simp [hr]
  · rw [hr]; exact set_get?_self (Option (Interceptor α)) m id none h
  · rw [hr]; exact set_take (Option (Interceptor α)) m id none
  · rw [hr]; exact set_drop (Option (Interceptor α)) m id none
  · have h2 : id < (rejectAt m id).length := by simpa [hr] using h
    simp [rejectAt, h, h2, List.set_set]
  · rw [hr]
    exact set_none_filterMap (Interceptor α) m id h

/-- Witness for claim C5 at a concrete manager of two handlers,
rejecting slot 0. -/
theorem reject_nulls_slot_in_place_witness :
    (rejectAt [some (Interceptor.mk (none : Option (Step Nat)) none),
        some (Interceptor.mk none none)] 0).length
      = [some (Interceptor.mk (none : Option (Step Nat)) none),
        some (Interceptor.mk none none)].length
  ∧ (rejectAt [some (Interceptor.mk (none : Option (Step Nat)) none),
        some (Interceptor.mk none none)] 0).get? 0 = some none
  ∧ (rejectAt [some (Interceptor.mk (none : Option (Step Nat)) none),
        some (Interceptor.mk none none)] 0).take 0
      = [some (Interceptor.mk (none : Option (Step Nat)) none),
        some (Interceptor.mk none none)].take 0
  ∧ (rejectAt [some (Interceptor.mk (none : Option (Step Nat)) none),
        some (Interceptor.mk none none)] 0).drop 1
      = [some (Interceptor.mk (none : Option (Step Nat)) none),
        some (Interceptor.mk none none)].drop 1
  ∧ rejectAt (rejectAt [some (Interceptor.mk (none : Option (Step Nat)) none),
        some (Interceptor.mk none none)] 0) 0
      = rejectAt [some (Interceptor.mk (none : Option (Step Nat)) none),
        some (Interceptor.mk none none)] 0
  ∧ forEachVisits (rejectAt [some (Interceptor.mk (none : Option (Step Nat)) none),
        some (Interceptor.mk none none)] 0)
      = forEachVisits ([some (Interceptor.mk (none : Option (Step Nat)) none),
          some (Interceptor.mk none none)].take 0)
        ++ forEachVisits ([some (Interceptor.mk (none : Option (Step Nat)) none),
          some (Interceptor.mk none none)].drop 1) :=
  reject_nulls_slot_in_place Nat
    [some (Interceptor.mk none none), some (Interceptor.mk none none)] 0
    (by decide)

/-- Claim C10: a reject with an id at or beyond the current length extends
the sequence to length id + 1 with null slots, so the next use returns
id + 1 rather than the old length, while forEach still visits exactly the
handlers actually inserted, in insertion order. -/
theorem reject_out_of_bounds_extends (α : Type) (m : Manager α) (id : Nat)
    (h : m.length ≤ id) (f r : Option (Step α)) :
    rejectAt m id = m ++ List.replicate (id + 1 - m.length) none
  ∧ (rejectAt m id).length = id + 1
  ∧ (use (rejectAt m id) f r).2 = id + 1
  ∧ forEachVisits (rejectAt m id) = forEachVisits m := by
  have hnot : ¬ id < m.length := by omega
  have hr : rejectAt m id = m ++ List.replicate (id + 1 - m.length) none := by
    simp [rejectAt, hnot]
  have hl : (rejectAt m id).length = id + 1 := by
    rw [hr]; simp; omega
  refine ⟨hr, hl, ?_, ?_⟩
  · simp [use, hl]
  · rw [hr]
    simp [forEachVisits, List.filterMap_append,
      filterMap_id_replicate_none (Interceptor α)]

/-- Witness for claim C10: from an empty manager, reject 2 extends the
sequence to three null slots and the next use returns 3. -/
theorem reject_out_of_bounds_extends_witness :
    rejectAt ([] : Manager Nat) 2 = [] ++ List.replicate 3 none
  ∧ (rejectAt ([] : Manager Nat) 2).length = 3
  ∧ (use (rejectAt ([] : Manager Nat) 2) none none).2 = 3
  ∧ forEachVisits (rejectAt ([] : Manager Nat) 2) = forEachVisits [] :=
  reject_out_of_bounds_extends Nat [] 2 (by decide) none none

/-- Claim C2: with request interceptors registered A then B and response
interceptors X then Y, the built chain is B, A, dispatch, X, Y — request
interceptors in reverse registration order before dispatch, response
interceptors in registration order after it — and a successful run
executes the fulfilled steps in exactly that order, shown by tracing
steps that record their labels. -/
theorem interceptors_run_lifo_then_fifo (α : Type) (df : Option JObj)
    (A B X Y : Interceptor α) (dispatch : Step α) :
    buildChain (Client.mk df [some A, some B] [some X, some Y]) dispatch
      = [toPair B, toPair A, (some dispatch, none), toPair X, toPair Y]
  ∧ (∀ (la lb lx ly ld : String) (t0 : List String),
      Client.request
        (Client.mk none
          [some (Interceptor.mk (some (appendStep la)) none),
           some (Interceptor.mk (some (appendStep lb)) none)]
          [some (Interceptor.mk (some (appendStep lx)) none),
           some (Interceptor.mk (some (appendStep ly)) none)])
        (appendStep ld) t0
      = Except.ok (t0 ++ [lb, la, ld, lx, ly])) := by
  constructor
  · rfl
  · intro la lb lx ly ld t0
    simp [Client.request, runChain, buildChain, forEachVisits, toPair,
      thenStep, appendStep, List.filterMap_cons]

/-- Claim C3: once a request interceptor fulfillment step fails, later
steps with no rejection handler — the terminal dispatch among them — pass
the error through without their fulfilled step running: over any
rejection-free chain segment the error propagates unchanged, so with no
rejection handler left the returned result is a failure carrying exactly
that error, and otherwise the nearest subsequent step with a rejection
handler receives it. -/
theorem failed_step_skips_to_rejection (α : Type) (e : α) :
    (∀ (c : Client α) (dispatch : Step α) (config : α),
        Client.request c dispatch config
          = runChain (Except.ok config) (buildChain c dispatch))
  ∧ (∀ cs : List (StepPair α), (∀ p ∈ cs, p.2 = none) →
        runChain (Except.error e) cs = Except.error e)
  ∧ (∀ (noRej tail : List (StepPair α)) (fOpt : Option (Step α)) (r : Step α),
        (∀ p ∈ noRej, p.2 = none) →
        runChain (Except.error e) (noRej ++ (fOpt, some r) :: tail)
          = runChain (r e) tail) := by
  have pass : ∀ cs : List (StepPair α), (∀ p ∈ cs, p.2 = none) →
      runChain (Except.error e) cs = Except.error e := by
    intro cs
    induction cs with
    | nil => intro h; rfl
    | cons p ps ih =>
      intro h
      have hp : p.2 = none := h p (List.mem_cons_self p ps)
      have step : thenStep (Except.error e) p = Except.error e := by
        simp [thenStep, hp]
      show runChain (thenStep (Except.error e) p) ps = Except.error e
      rw [step]
      exact ih (fun q hq => h q (List.mem_cons_of_mem p hq))
  refine ⟨fun c d config => rfl, pass, ?_⟩
  intro noRej tail fOpt r
  induction noRej with
  | nil =>
    intro h
    show runChain (thenStep (Except.error e) (fOpt, some r)) tail = _
    simp [thenStep]
  | cons p ps ih =>
    intro h
    have hp : p.2 = none := h p (List.mem_cons_self p ps)
    have step : thenStep (Except.error e) p = Except.error e := by
      simp [thenStep, hp]
    show runChain (thenStep (Except.error e) p) (ps ++ (fOpt, some r) :: tail) = _
    rw [step]
    exact ih (fun q hq => h q (List.mem_cons_of_mem p hq))

/-- Witness for claim C3: the error passes unchanged through a
rejection-free chain, and reaches the first rejection handler after a
rejection-free segment. -/
theorem failed_step_skips_to_rejection_witness :
    runChain (Except.error 7) [((none : Option (Step Nat)), none)]
      = Except.error 7
  ∧ runChain (Except.error 7)
      ([((none : Option (Step Nat)), none)]
        ++ ((none : Option (Step Nat)), some (fun v => Except.ok (v + 1))) :: [])
      = runChain (Except.ok 8) [] :=
  ⟨(failed_step_skips_to_rejection Nat 7).2.1 [(none, none)]
      (by intro p hp; rw [List.mem_singleton] at hp; rw [hp]),
   (failed_step_skips_to_rejection Nat 7).2.2 [(none, none)] [] none
      (fun v => Except.ok (v + 1))
      (by intro p hp; rw [List.mem_singleton] at hp; rw [hp])⟩

/-- Claim C6: when the terminal dispatch fails and no response
interceptor is registered, request returns a failure carrying that same
error, unmodified — no retry, suppression or transformation. -/
theorem dispatch_failure_returned_unmodified (α : Type) (c : Client α)
    (dispatch : Step α) (config c2 err : α)
    (hresp : forEachVisits c.responseInterceptors = [])
    (hreq : runChain (Except.ok config)
        (((forEachVisits c.requestInterceptors).map toPair).reverse)
      = Except.ok c2)
    (hdisp : dispatch c2 = Except.error err) :
    Client.request c dispatch config = Except.error err := by
  show runChain (Except.ok config) (buildChain c dispatch) = _
  rw [buildChain_eq, hresp]
  simp only [List.map_nil]
  rw [runChain_append, hreq]
  show thenStep (Except.ok c2) (some dispatch, none) = Except.error err
  simp [thenStep, hdisp]

/-- Witness for claim C6: a dispatch failing with a timeout error on a
client with no interceptors is returned unmodified. -/
theorem dispatch_failure_returned_unmodified_witness :
    Client.request (Client.mk none [] ([] : Manager String))
      (fun _ => Except.error "timeout") "cfg" = Except.error "timeout" :=
  dispatch_failure_returned_unmodified String (Client.mk none [] [])
    (fun _ => Except.error "timeout") "cfg" "cfg" "timeout" rfl rfl rfl

/-- Claim C8: dispatchRequest invokes the platform transport exactly once
with the given config and bridges its callbacks into one settlement:
assuming the transport makes exactly one callback invocation, the result
settles exactly once, fulfilled with the success payload or rejected with
the failure payload, exactly as passed. -/
theorem dispatch_settles_exactly_once (α : Type)
    (transport : α → List (CbCall α)) (config : α) (call : CbCall α)
    (h : transport config = [call]) :
    (dispatchRequest transport config).1 = [config]
  ∧ (dispatchRequest transport config).2 = some (bridgeCall call) := by
  refine ⟨rfl, ?_⟩
  show (transport config).foldl settleOnce none = some (bridgeCall call)
  rw [h]
  cases call <;> rfl

/-- Witness for claim C8: a transport that calls success once with its
config. -/
theorem dispatch_settles_exactly_once_witness :
    (dispatchRequest (fun c => [CbCall.success c]) "r").1 = ["r"]
  ∧ (dispatchRequest (fun c => [CbCall.success c]) "r").2
      = some (bridgeCall (CbCall.success "r")) :=
  dispatch_settles_exactly_once String (fun c => [CbCall.success c]) "r"
    (CbCall.success "r") rfl

/-- Claim C9: request leaves the client state untouched — defaults and
both interceptor sequences are the same before and after a call — its
result is exactly the run of a chain rebuilt per call from that state
alone, so a second call is unaffected by a first, and the state-passing
renderings of use and reject are the operations that change an
interceptor sequence, each touching exactly its own manager. -/
theorem request_leaves_client_unchanged (α : Type) (c : Client α)
    (dispatch : Step α) (config config2 : α) (f r : Option (Step α))
    (id : Nat) :
    (Client.requestSt c dispatch config).1 = c
  ∧ Client.requestSt ((Client.requestSt c dispatch config).1) dispatch config2
      = Client.requestSt c dispatch config2
  ∧ (Client.requestSt c dispatch config).2
      = runChain (Except.ok config) (buildChain c dispatch)
  ∧ (Client.useRequest c f r).1
      = Client.mk c.defaults (use c.requestInterceptors f r).1
          c.responseInterceptors
  ∧ Client.rejectRequest c id
      = Client.mk c.defaults (rejectAt c.requestInterceptors id)
          c.responseInterceptors
  ∧ (Client.useResponse c f r).1
      = Client.mk c.defaults c.requestInterceptors
          (use c.responseInterceptors f r).1
  ∧ Client.rejectResponse c id
      = Client.mk c.defaults c.requestInterceptors
          (rejectAt c.responseInterceptors id) :=
  ⟨rfl, rfl, rfl, rfl, rfl, rfl, rfl⟩

/-- Claim C1 fails on the code: Request.prototype.request starts the
chain from the caller config as given and never merges this.defaults, so
in the end-to-end scenario the config reaching dispatch carries only the
interceptor-added token header and lacks the content-type default the
claim requires. Applying the same interceptor to the spec-required merged
config does yield the claimed config, isolating the missing merge as the
divergence. -/
theorem request_does_not_merge_defaults :
    Client.request scenarioClient echoDispatch scenarioConfig
      = Except.ok [("url", JField.s "/ping"), ("method", JField.s "get"),
          ("header", JField.o [("x-token", "abc")])]
  ∧ [("url", JField.s "/ping"), ("method", JField.s "get"),
      ("header", JField.o [("x-token", "abc")])]
      ≠ claimedDispatchConfig
  ∧ addTokenStep (specMergedConfig scenarioDefaults scenarioConfig)
      = Except.ok claimedDispatchConfig :=
  ⟨rfl, by decide, rfl⟩

/-- Claim C7 fails on the code: the convenience methods are pure partial
application — get(url, config) delegates to request with the caller
config plus method and url, no independent logic — but request never
merges defaults, so the effective config omits the instance defaults the
claimed formula includes. -/
theorem get_effective_config_omits_defaults :
    (∀ (c : Client JObj) (d : Step JObj) (method url : String)
        (cfg : Option JObj),
        methodNoData c d method url cfg
          = Client.request c d
              (objSet (objSet (cfg.getD []) "method" (JField.s method)) "url"
                (JField.s url)))
  ∧ methodNoData c7Client echoDispatch "get" "/u" (some c7CallerConfig)
      = Except.ok [("headers", JField.o [("a", "1")]),
          ("method", JField.s "get"), ("url", JField.s "/u")]
  ∧ [("headers", JField.o [("a", "1")]),
      ("method", JField.s "get"), ("url", JField.s "/u")]
      ≠ specGetEffectiveConfig scenarioDefaults c7CallerConfig "/u" :=
  ⟨fun c d method url cfg => rfl, rfl, by decide⟩

end WxRequest
